import Mathlib

/-!
Verification of `oc-corelibs-sql-helpers` (PL/SQL normalizer and unwrap codec).

The development is a shallow embedding of `oc_sql_helpers/normalizer.py`
(`PLSQLNormalizer`) and `oc_sql_helpers/wrapper.py` (`PLSQLWrapper.unwrap_buf`,
`PLSQLWrapper._decode_base64_package`).  Byte strings are `List Nat`
(each entry one byte); file-like objects are a `PyStream` record carrying the
full byte content and the current read position.  External libraries
(`base64.b64decode`, `zlib.decompress`) are abstracted as function parameters
returning `Except Unit (List Nat)`.  Regular-expression searches used by the
Python code are compiled by hand into explicit scanning functions that follow
Python `re` semantics (leftmost match, ordered alternation, first-found
tie-break in the pattern dictionaries).
-/

set_option maxRecDepth 4096
set_option linter.unnecessarySeqFocus false
set_option linter.unreachableTactic false
set_option linter.unusedTactic false

namespace SqlHelpers

/-- ASCII bytes of a Lean string literal (used only for ASCII literals). -/
def bs (s : String) : List Nat := s.data.map Char.toNat

/-- Python `\s` byte class: space, tab, newline, carriage return, form feed,
vertical tab. -/
def isWsB (b : Nat) : Bool := b = 32 || b = 9 || b = 10 || b = 13 || b = 12 || b = 11

/-- ASCII lower-casing of one byte (Python `bytes.lower` is ASCII-only). -/
def toLowerB (b : Nat) : Nat := if 65 ≤ b ∧ b ≤ 90 then b + 32 else b

/-- ASCII upper-casing of one byte (Python `bytes.upper` is ASCII-only). -/
def toUpperB (b : Nat) : Nat := if 97 ≤ b ∧ b ≤ 122 then b - 32 else b

/-- `bytes.upper()` -/
def upperB (l : List Nat) : List Nat := l.map toUpperB

/-- `bytes.lower()` -/
def lowerB (l : List Nat) : List Nat := l.map toLowerB

/-- `bytes.lstrip()` (ASCII whitespace). -/
def lstripB (l : List Nat) : List Nat := l.dropWhile isWsB

/-- `bytes.rstrip()` (ASCII whitespace). -/
def rstripB (l : List Nat) : List Nat := (l.reverse.dropWhile isWsB).reverse

/-- `bytes.strip()` (ASCII whitespace). -/
def stripB (l : List Nat) : List Nat := rstripB (lstripB l)

/-- `re.search(b'\s+$', l)` is truthy iff the last byte is whitespace. -/
def endSpaceB (l : List Nat) : Bool :=
  match l.getLast? with
  | none => false
  | some b => isWsB b

/-- `re.search(b'^\s+', l)` is truthy iff the first byte is whitespace. -/
def startSpaceB (l : List Nat) : Bool :=
  match l.head? with
  | none => false
  | some b => isWsB b

/-- `re.search(b'\s+', l)` is truthy iff some byte is whitespace. -/
def anySpaceB (l : List Nat) : Bool := l.any isWsB

theorem dropWhile_length_le (p : α → Bool) (l : List α) :
    (l.dropWhile p).length ≤ l.length := by
  induction l with
  | nil => simp
  | cons a t ih =>
    by_cases h : p a <;> simp [List.dropWhile, h] <;> omega

/-- Byte-by-byte worker for `re.sub(b'\s+', b' ', l)`: the flag records
whether the previous byte was whitespace (in which case further whitespace is
dropped rather than emitted as a space). -/
def anySpaceSubAux : Bool → List Nat → List Nat
  | _, [] => []
  | prevWs, b :: rest =>
    if isWsB b then
      if prevWs then anySpaceSubAux true rest
      else 32 :: anySpaceSubAux true rest
    else b :: anySpaceSubAux false rest

/-- `re.sub(b'\s+', b' ', l)`: replace each maximal whitespace run with one
space. -/
def anySpaceSubB (l : List Nat) : List Nat := anySpaceSubAux false l

/-- Python slice `l[s:e]`. -/
def sliceB (l : List Nat) (s e : Nat) : List Nat := (l.take e).drop s

/-- Truthiness of the `_object_name` / `_object_type` fields (`None` and the
empty string are falsy in Python). -/
def pyTruthyO : Option (List Nat) → Bool
  | none => false
  | some l => !l.isEmpty

/-! ## File-like objects

A binary file opened for reading is a byte list plus a position.  `readline`
returns the bytes from the position through the next newline (inclusive), or
through end-of-data; an empty result signals end-of-file. -/

structure PyStream where
  data : List Nat
  pos : Nat
deriving DecidableEq, Repr

/-- Bytes of one line: everything up to and including the first newline. -/
def takeLine : List Nat → List Nat
  | [] => []
  | b :: rest => if b = 10 then [10] else b :: takeLine rest

/-- `fl.readline()`: the next line and the advanced stream. -/
def readline (s : PyStream) : List Nat × PyStream :=
  let line := takeLine (s.data.drop s.pos)
  (line, { s with pos := s.pos + line.length })

theorem takeLine_length_le (l : List Nat) : (takeLine l).length ≤ l.length := by
  induction l with
  | nil => simp [takeLine]
  | cons b rest ih =>
    by_cases h : b = 10 <;> simp [takeLine, h] <;> omega

theorem takeLine_ne_nil (b : Nat) (rest : List Nat) : takeLine (b :: rest) ≠ [] := by
  by_cases h : b = 10 <;> simp [takeLine, h]

/-! ## UTF-8 validation

`bytes.decode("utf-8")` succeeds exactly on valid (strict) UTF-8: no
surrogates, no overlong encodings, code points at most `U+10FFFF`. -/

/-- A UTF-8 continuation byte: `0x80–0xBF`. -/
def isCont (b : Nat) : Bool := 128 ≤ b && b ≤ 191

/-- Strict UTF-8 validity of a byte sequence, as checked by Python's
`bytes.decode("utf-8")`. -/
def utf8Valid : List Nat → Bool
  | [] => true
  | b :: rest =>
    if b ≤ 127 then utf8Valid rest
    else if 194 ≤ b && b ≤ 223 then
      match rest with
      | c :: r2 => isCont c && utf8Valid r2
      | [] => false
    else if b = 224 then
      match rest with
      | c :: d :: r2 => (160 ≤ c && c ≤ 191) && isCont d && utf8Valid r2
      | _ => false
    else if (225 ≤ b && b ≤ 236) || b = 238 || b = 239 then
      match rest with
      | c :: d :: r2 => isCont c && isCont d && utf8Valid r2
      | _ => false
    else if b = 237 then
      match rest with
      | c :: d :: r2 => (128 ≤ c && c ≤ 159) && isCont d && utf8Valid r2
      | _ => false
    else if b = 240 then
      match rest with
      | c :: d :: e :: r2 => (144 ≤ c && c ≤ 191) && isCont d && isCont e && utf8Valid r2
      | _ => false
    else if 241 ≤ b && b ≤ 243 then
      match rest with
      | c :: d :: e :: r2 => isCont c && isCont d && isCont e && utf8Valid r2
      | _ => false
    else if b = 244 then
      match rest with
      | c :: d :: e :: r2 => (128 ≤ c && c ≤ 143) && isCont d && isCont e && utf8Valid r2
      | _ => false
    else false

/-! ## Unwrap codec (`oc_sql_helpers/wrapper.py`)

`PLSQLWrapper._charmap`, `_decode_base64_package` and `unwrap_buf`.
`base64.b64decode` and `zlib.decompress` are standard-library primitives
external to this repository; they are taken as parameters
(`b64 inflate : List Nat → Except Unit (List Nat)`), an error result standing
for the raised `binascii.Error` / `zlib.error`. -/

/-- `PLSQLWrapper._charmap`: the fixed 256-entry substitution table. -/
def charmap : List Nat :=
  [0x3d, 0x65, 0x85, 0xb3, 0x18, 0xdb, 0xe2, 0x87, 0xf1, 0x52, 0xab, 0x63, 0x4b,
   0xb5, 0xa0, 0x5f, 0x7d, 0x68, 0x7b, 0x9b, 0x24, 0xc2, 0x28, 0x67, 0x8a, 0xde,
   0xa4, 0x26, 0x1e, 0x03, 0xeb, 0x17, 0x6f, 0x34, 0x3e, 0x7a, 0x3f, 0xd2, 0xa9,
   0x6a, 0x0f, 0xe9, 0x35, 0x56, 0x1f, 0xb1, 0x4d, 0x10, 0x78, 0xd9, 0x75, 0xf6,
   0xbc, 0x41, 0x04, 0x81, 0x61, 0x06, 0xf9, 0xad, 0xd6, 0xd5, 0x29, 0x7e, 0x86,
   0x9e, 0x79, 0xe5, 0x05, 0xba, 0x84, 0xcc, 0x6e, 0x27, 0x8e, 0xb0, 0x5d, 0xa8,
   0xf3, 0x9f, 0xd0, 0xa2, 0x71, 0xb8, 0x58, 0xdd, 0x2c, 0x38, 0x99, 0x4c, 0x48,
   0x07, 0x55, 0xe4, 0x53, 0x8c, 0x46, 0xb6, 0x2d, 0xa5, 0xaf, 0x32, 0x22, 0x40,
   0xdc, 0x50, 0xc3, 0xa1, 0x25, 0x8b, 0x9c, 0x16, 0x60, 0x5c, 0xcf, 0xfd, 0x0c,
   0x98, 0x1c, 0xd4, 0x37, 0x6d, 0x3c, 0x3a, 0x30, 0xe8, 0x6c,
   0x31, 0x47, 0xf5, 0x33, 0xda, 0x43, 0xc8, 0xe3, 0x5e, 0x19, 0x94, 0xec, 0xe6,
   0xa3, 0x95, 0x14, 0xe0, 0x9d, 0x64, 0xfa, 0x59, 0x15, 0xc5, 0x2f, 0xca, 0xbb,
   0x0b, 0xdf, 0xf2, 0x97, 0xbf, 0x0a, 0x76, 0xb4, 0x49, 0x44, 0x5a, 0x1d, 0xf0,
   0x00, 0x96, 0x21, 0x80, 0x7f, 0x1a, 0x82, 0x39, 0x4f, 0xc1, 0xa7, 0xd7, 0x0d,
   0xd1, 0xd8, 0xff, 0x13, 0x93, 0x70, 0xee, 0x5b, 0xef, 0xbe, 0x09, 0xb9, 0x77,
   0x72, 0xe7, 0xb2, 0x54, 0xb7, 0x2a, 0xc7, 0x73, 0x90, 0x66, 0x20, 0x0e, 0x51,
   0xed, 0xf8, 0x7c, 0x8f, 0x2e, 0xf4, 0x12, 0xc6, 0x2b, 0x83, 0xcd, 0xac, 0xcb,
   0x3b, 0xc4, 0x4e, 0xc0, 0x69, 0x36, 0x62, 0x02, 0xae, 0x88, 0xfc, 0xaa, 0x42,
   0x08, 0xa6, 0x45, 0x57, 0xd3, 0x9a, 0xbd, 0xe1, 0x23, 0x8d, 0x92, 0x4a, 0x11,
   0x89, 0x74, 0x6b, 0x91, 0xfb, 0xfe, 0xc9, 0x01, 0xea, 0x1b, 0xf7, 0xce]

/-- Errors escaping `unwrap_buf`: the raw `binascii.Error` from
`base64.b64decode` and the raw `zlib.error` from `zlib.decompress`.  The code
defines no dedicated unwrap error. -/
inductive WrapErr where
  | b64Error : WrapErr
  | zlibError : WrapErr
deriving DecidableEq, Repr

/-- `PLSQLWrapper._decode_base64_package`, verbatim from the source:
base64-decode, slice `[20:]`, then a byte-by-byte loop appending
`bytes([self._charmap[_char]])`, then `zlib.decompress`. -/
def decodeBase64Package (b64 inflate : List Nat → Except Unit (List Nat))
    (pkgBase64 : List Nat) : Except WrapErr (List Nat) :=
  match b64 pkgBase64 with
  | .error _ => .error .b64Error
  | .ok dec =>
    let base64dec := dec.drop 20
    let decoded := base64dec.foldl (fun acc c => acc ++ [charmap.getD c 0]) []
    match inflate decoded with
    | .error _ => .error .zlibError
    | .ok r => .ok r

/-- Modelled from the spec: the decoding formula of §4.6 step 4 / claim C2:
base64-decode the payload, discard the first 20 decoded bytes, map each
remaining byte through the substitution table, zlib-inflate the result. -/
def specUnwrapDecode (b64 inflate : List Nat → Except Unit (List Nat))
    (pkgBase64 : List Nat) : Except WrapErr (List Nat) :=
  match b64 pkgBase64 with
  | .error _ => .error .b64Error
  | .ok dec =>
    match inflate ((dec.drop 20).map (fun c => charmap.getD c 0)) with
    | .error _ => .error .zlibError
    | .ok r => .ok r

/-- Fuel-driven worker for `PLSQLWrapper._re_cmnt.sub(repl, l)`: replace each
non-overlapping leftmost match of `(/\*.*?\*/|--[^\n]*?\n)` (DOTALL,
non-greedy) by `repl`.  At each position the `/*` alternative is tried first;
a non-greedy body ends at the earliest closing delimiter.  Every recursive
call drops at least one byte, so the fuel passed by `reCmntSub` suffices. -/
def reCmntSubF (repl : List Nat) : Nat → List Nat → List Nat
  | 0, l => l
  | _, [] => []
  | fuel + 1, b :: rest =>
    if b = 47 ∧ rest.head? = some 42 then
      -- possible '/*': find the earliest '*/' at or after the body start
      match (List.range rest.length).find?
          (fun j => 1 ≤ j && (rest.drop j).take 2 = [42, 47]) with
      | some j => repl ++ reCmntSubF repl fuel (rest.drop (j + 2))
      | none => b :: reCmntSubF repl fuel rest
    else if b = 45 ∧ rest.head? = some 45 then
      -- possible '--': find the earliest '\n' strictly inside rest
      match (List.range rest.length).find?
          (fun j => 1 ≤ j && (rest.drop j).take 1 = [10]) with
      | some j => repl ++ reCmntSubF repl fuel (rest.drop (j + 1))
      | none => b :: reCmntSubF repl fuel rest
    else
      b :: reCmntSubF repl fuel rest

/-- `PLSQLWrapper._re_cmnt.sub(repl, l)`. -/
def reCmntSub (repl l : List Nat) : List Nat := reCmntSubF repl (l.length + 1) l

/-- Case-insensitive check that the bytes at offset `i` of `l` spell the
(lower-case) word `w`. -/
def ciWordAt (w : List Nat) (l : List Nat) (i : Nat) : Bool :=
  ((l.drop i).take w.length).map toLowerB = w

/-- Length of the whitespace run starting at offset `i`. -/
def wsRunFrom (l : List Nat) (i : Nat) : Nat := ((l.drop i).takeWhile isWsB).length

/-- Result of `PLSQLWrapper._re_decl.search`: the span and the three named
groups. -/
structure DeclMatch where
  s : Nat
  e : Nat
  createSuf : List Nat
  objType : List Nat
  objName : List Nat
deriving DecidableEq, Repr

/-- The tail `\s+wrapped(\s+|$)` of the declaration regex, tried at offset
`k`: a whitespace run of length at least one, the word `wrapped`
(case-insensitively), then either a greedy whitespace run or end-of-data
(`$` also matching just before a final newline, which is subsumed because a
newline is whitespace).  Returns the end offset of the whole match. -/
def declTailAt (l : List Nat) (k : Nat) : Option Nat :=
  let r := wsRunFrom l k
  if r = 0 then none
  else if ciWordAt (bs "wrapped") l (k + r) then
    let p := k + r + 7
    let r2 := wsRunFrom l p
    if r2 ≠ 0 then some (p + r2)
    else if p = l.length then some p
    else none
  else none

/-- Greedy `(.*)` followed by the tail: `.` does not match a newline, so the
candidate split points `k` run from the end of the line (or the first newline)
down to `from_`; the rightmost viable split wins. -/
def declNameSplit (l : List Nat) (from_ : Nat) : Option (Nat × Nat) :=
  let stop := from_ + ((l.drop from_).takeWhile (fun b => b ≠ 10)).length
  let ks := ((List.range (stop + 1)).filter (fun k => from_ ≤ k)).reverse
  ks.findSome? (fun k => (declTailAt l k).map (fun e => (k, e)))

/-- The object-type alternation `(package\s+body|package|procedure|function)`
tried at offset `i`, in regex alternation order, each alternative combined
with the rest of the pattern (`\s+(.*)\s+wrapped(\s+|$)`).  Returns the
object-type group text, the name group text, and the overall end. -/
def declTypeAt (l : List Nat) (i : Nat) : Option (List Nat × List Nat × Nat) :=
  let tryAlt : Nat → Option (List Nat × List Nat × Nat) := fun tlen =>
    let p := i + tlen
    let maxR := wsRunFrom l p
    -- the greedy `\s+` before `(.*)` backtracks from the maximal run down to 1
    (((List.range maxR).map (fun d => maxR - d)).findSome? (fun r =>
      match declNameSplit l (p + r) with
      | some (k, e) => some (sliceB l i p, sliceB l (p + r) k, e)
      | none => none))
  let pb : Option (List Nat × List Nat × Nat) :=
    if ciWordAt (bs "package") l i then
      let r := wsRunFrom l (i + 7)
      if r ≠ 0 && ciWordAt (bs "body") l (i + 7 + r) then tryAlt (7 + r + 4)
      else none
    else none
  pb.orElse (fun _ =>
    (if ciWordAt (bs "package") l i then tryAlt 7 else none).orElse (fun _ =>
    (if ciWordAt (bs "procedure") l i then tryAlt 9 else none).orElse (fun _ =>
    (if ciWordAt (bs "function") l i then tryAlt 8 else none))))

/-- A match of `PLSQLWrapper._re_decl` anchored at offset `i`:
`create\s+(or\s+replace\s+)?` then the type alternation and the rest.  The
optional `or replace` group is tried present first, per regex backtracking. -/
def declMatchAt (l : List Nat) (i : Nat) : Option DeclMatch :=
  if ciWordAt (bs "create") l i then
    let r := wsRunFrom l (i + 6)
    if r = 0 then none
    else
      let afterCreate := i + 6 + r
      let withOr : Option DeclMatch :=
        if ciWordAt (bs "or") l afterCreate then
          let r2 := wsRunFrom l (afterCreate + 2)
          if r2 ≠ 0 && ciWordAt (bs "replace") l (afterCreate + 2 + r2) then
            let r3 := wsRunFrom l (afterCreate + 2 + r2 + 7)
            if r3 ≠ 0 then
              let tstart := afterCreate + 2 + r2 + 7 + r3
              match declTypeAt l tstart with
              | some (ty, nm, e) => some ⟨i, e, sliceB l i tstart, ty, nm⟩
              | none => none
            else none
          else none
        else none
      withOr.orElse (fun _ =>
        match declTypeAt l afterCreate with
        | some (ty, nm, e) => some ⟨i, e, sliceB l i afterCreate, ty, nm⟩
        | none => none)
  else none

/-- `PLSQLWrapper._re_decl.search(l)`: leftmost match. -/
def reDeclSearch (l : List Nat) : Option DeclMatch :=
  (List.range (l.length + 1)).findSome? (fun i => declMatchAt l i)

/-- Value of a lower-case hexadecimal digit byte, if it is one. -/
def hexDigit (b : Nat) : Option Nat :=
  if 48 ≤ b ∧ b ≤ 57 then some (b - 48)
  else if 97 ≤ b ∧ b ≤ 102 then some (b - 87)
  else none

/-- Whether `b` is a `[0-9a-f]` byte. -/
def isHexB (b : Nat) : Bool := (hexDigit b).isSome

/-- Numeric value of a list of hex-digit bytes (base 16, most significant
first). -/
def hexVal (l : List Nat) : Nat :=
  l.foldl (fun acc b => acc * 16 + ((hexDigit b).getD 0)) 0

/-- `re.compile(b"^[0-9a-f]+ ([0-9a-f]+)$").match(l)`: two non-empty
lower-case hex runs separated by one space, spanning the whole string (`$`
also matches before a final newline).  Returns the value of the second
group. -/
def wrapstartMatch (l : List Nat) : Option Nat :=
  let run1 := l.takeWhile isHexB
  if run1.isEmpty then none
  else
    let rest := l.drop run1.length
    match rest with
    | 32 :: rest2 =>
      let run2 := rest2.takeWhile isHexB
      if run2.isEmpty then none
      else
        let tail := rest2.drop run2.length
        if tail = [] ∨ tail = [10] then some (hexVal run2)
        else none
    | _ => none

/-- State of the `unwrap_buf` scanning loop: the rolling declaration buffer,
the pending leftover from an over-long base64 block, the captured groups, and
the bytes written to the output so far. -/
structure UnwrapState where
  decl : List Nat
  declNext : List Nat
  objType : List Nat
  objName : List Nat
  createPre : List Nat
  out : List Nat
deriving DecidableEq, Repr

/-- The schema-name scan of `unwrap_buf` (the `b"." in _obj_name` branch):
accumulate dot-separated components, toggling `_quoted` on odd quote counts,
stopping after the first component group that closes its quotes. -/
def schemaScan (parts : List (List Nat)) (schema : List Nat) (quoted : Bool) :
    List Nat :=
  match parts with
  | [] => schema
  | p :: rest =>
    let schema' := if schema.isEmpty then p else schema ++ [46] ++ p
    let nq := p.count 34
    let quoted' := if nq % 2 = 1 then !quoted else quoted
    if quoted' then schemaScan rest schema' quoted' else schema'

/-- `b'.'.split`: split on the dot byte. -/
def splitDots (l : List Nat) : List (List Nat) := l.splitOn 46

/-- `re.sub(b"^%s\s+" % objType, start, add, flags=re.I)`: if `add` begins
with the object type (case-insensitively) followed by at least one whitespace
byte, replace that prefix by `start`. -/
def subTypePre (objType start add : List Nat) : List Nat :=
  if ciWordAt (lowerB objType) add 0 then
    let r := wsRunFrom add objType.length
    if r ≠ 0 then start ++ add.drop (objType.length + r) else add
  else add

/-- The block-rewriting step of `unwrap_buf` (lines 300–356): decode the
base64 block, append a newline, and if the inflated text starts with the
object type, rewrite the declaration prefix and strip NUL bytes. -/
def unwrapBlock (b64 inflate : List Nat → Except Unit (List Nat))
    (st : UnwrapState) (base64 : List Nat) : Except WrapErr (List Nat) := do
  let dec ← decodeBase64Package b64 inflate (base64.filter (fun b => b ≠ 10))
  let add := dec ++ [10]
  if (upperB add).take st.objType.length = st.objType then
    let start0 := st.createPre ++ st.objType
    let start1 := anySpaceSubB (stripB start0)
    let start2 :=
      if st.objName.contains 46 then
        start1 ++ [32] ++ (schemaScan (splitDots st.objName) [] false) ++ [46]
      else
        -- `_start += b' '` then `re.sub(b'\s+$', b' ', _start)`
        rstripB (start1 ++ [32]) ++ [32]
    let add1 := subTypePre st.objType start2 add
    pure (add1.filter (fun b => b ≠ 0))
  else
    pure add

/-- The inner base64-accumulation loop of `unwrap_buf`: read lines, strip
carriage returns, concatenate until at least `need` bytes are collected or
end-of-file.  Fuel-driven; the fuel passed by callers (one unit per remaining
byte plus one) always suffices since every iteration consumes input. -/
def unwrapB64Read (fuel : Nat) (s : PyStream) (acc : List Nat) (need : Nat) :
    List Nat × PyStream :=
  match fuel with
  | 0 => (acc, s)
  | fuel + 1 =>
    if acc.length < need then
      let (line, s1) := readline s
      if line = [] then (acc, s1)
      else
        let lineAdd := line.filter (fun b => b ≠ 13)
        if lineAdd = [] then unwrapB64Read fuel s1 acc need
        else unwrapB64Read fuel s1 (acc ++ lineAdd) need
    else (acc, s)

/-- The main scanning loop of `unwrap_buf` (lines 230–367): accumulate the
declaration buffer, match the wrapped declaration, match the length header,
read the base64 block, decode and rewrite it, and continue with any
leftover bytes as the next declaration buffer.  Fuel-driven as above. -/
def unwrapLoop (b64 inflate : List Nat → Except Unit (List Nat)) :
    Nat → PyStream → UnwrapState → Except WrapErr UnwrapState × PyStream
  | 0, s, st => (.ok st, s)
  | fuel + 1, s, st =>
    let (line, s1) := readline s
    if line = [] then (.ok st, s1)
    else
      let lineA := stripB (reCmntSub [32] line)
      if lineA = [] then unwrapLoop b64 inflate fuel s1 st
      else
        match reDeclSearch st.decl with
        | none =>
          let d := reCmntSub [] (st.decl ++ [32] ++ lineA)
          unwrapLoop b64 inflate fuel s1 { st with decl := d }
        | some m =>
          let st1 : UnwrapState := { st with
            decl := sliceB st.decl m.s m.e,
            objType := anySpaceSubB (upperB m.objType),
            objName := upperB m.objName,
            createPre := upperB m.createSuf }
          match wrapstartMatch lineA with
          | none => unwrapLoop b64 inflate fuel s1 st1
          | some b64len =>
            let (block, s2) := unwrapB64Read (s1.data.length + 1) s1 [] b64len
            let declNext :=
              if b64len < block.length then block.drop b64len else st1.declNext
            let block1 :=
              if b64len < block.length then block.take b64len else block
            match unwrapBlock b64 inflate st1 block1 with
            | .error e => (.error e, s2)
            | .ok add =>
              unwrapLoop b64 inflate fuel s2 { st1 with
                out := st1.out ++ add,
                decl := if declNext ≠ [] then declNext else [],
                declNext := declNext,
                objType := [], objName := [], createPre := [] }

/-- `PLSQLWrapper.unwrap_buf` on a file-like input with `write_to` omitted:
record the entry position, seek to the start, run the scanning loop, and on
the fall-through path seek back to the entry position and return the output
bytes.  A decoding error propagates and skips the restoring seek. -/
def unwrapStream (b64 inflate : List Nat → Except Unit (List Nat))
    (s0 : PyStream) : Except WrapErr (List Nat) × PyStream :=
  match unwrapLoop b64 inflate (s0.data.length + 1) { s0 with pos := 0 }
      ⟨[], [], [], [], [], []⟩ with
  | (.error e, s1) => (.error e, s1)
  | (.ok st, s1) => (.ok st.out, { s1 with pos := s0.pos })

/-! ## Normalizer (`oc_sql_helpers/normalizer.py`)

`PLSQLNormalizationFlags`, `PLSQLNormalizationError` (one constructor per
raise site) and the `PLSQLNormalizer` state machine.  A raw
`UnicodeDecodeError` (line 504 decodes without a `try` block) and Python's
`RecursionError` are separate constructors because `_is_props_g` catches
`PLSQLNormalizationError` and `RecursionError` but not `UnicodeDecodeError`. -/

/-- `PLSQLNormalizationFlags`. -/
inductive NFlag where
  | noComments | noSpaces | uppercase | noLiterals | commentsOnly
deriving DecidableEq, Repr

/-- The raise sites of `PLSQLNormalizationError` in `normalizer.py`. -/
inductive NErrMsg where
  | noSpacesWithoutNoComments
  | commentsOnlyConflict
  | wrongWrappedContent
  | replaceBeforeOr
  | unsupportedObjectType
  | keywordWithoutObjectType
  | keywordWithoutObjectName
  | duplicateCreate
  | keywordInsideBody
  | nonAsciiObjectName
  | objectTypeNotParsed
  | objectNameNotParsed
deriving DecidableEq, Repr

/-- Errors escaping `normalize`. -/
inductive NErr where
  | normErr (m : NErrMsg)
  | unicodeDecodeErr
  | recursionErr
deriving DecidableEq, Repr

/-- The exceptions `_is_props_g` catches: `PLSQLNormalizationError` and
`RecursionError`. -/
def catchable : NErr → Bool
  | .normErr _ => true
  | .recursionErr => true
  | .unicodeDecodeErr => false

/-- The pattern-dictionary keys of `_re_objects_decl` and
`_re_objects_body`. -/
inductive Ctx where
  | create | orK | replaceK | objectType | asK | wrappedK
  | objectName | literal | comment
deriving DecidableEq, Repr

/-- The parse-state instance fields of `PLSQLNormalizer`. -/
structure NState where
  commentStarted : Bool
  literalStarted : Bool
  objectNameStarted : Bool
  wrapped : Bool
  createFound : Bool
  orFound : Bool
  replaceFound : Bool
  asFound : Bool
  objectType : Option (List Nat)
  objectName : Option (List Nat)
  reEndobj : Option (List Nat)
  objectNameAppend : Bool
  objectNameRemoveQuotes : Bool
deriving DecidableEq, Repr

/-- `_reset`: the state at the start of every `normalize` call. -/
def initNState : NState :=
  ⟨false, false, false, false, false, false, false, false, none, none, none,
   false, false⟩

/-- `_reset_parse_flags`. -/
def resetParseFlags (st : NState) : NState :=
  { st with commentStarted := false, literalStarted := false,
            objectNameStarted := false }

/-- `_parsecontext`. -/
def parsecontext (st : NState) : Option Ctx :=
  if st.commentStarted then some .comment
  else if st.literalStarted then some .literal
  else if st.objectNameStarted then some .objectName
  else none

/-- `_anything_started`. -/
def anythingStarted (st : NState) : Bool :=
  (st.commentStarted || st.literalStarted || st.objectNameStarted)
    && st.reEndobj.isSome

/-- `_check_flags`. -/
def checkFlags (flags : List NFlag) : Except NErr Unit :=
  if NFlag.noComments ∉ flags ∧ NFlag.noSpaces ∈ flags then
    .error (.normErr .noSpacesWithoutNoComments)
  else if NFlag.commentsOnly ∈ flags ∧ 1 < flags.length then
    .error (.normErr .commentsOnlyConflict)
  else .ok ()

/-! ### Byte-pattern searches

Each static pattern of the two dictionaries, compiled by hand.  A keyword
pattern `(\s|^)word(\s|$)` matches at the leftmost position where either a
whitespace byte (tried first) or start-of-data is followed by the word,
case-insensitively, followed by one whitespace byte (consumed, tried first)
or end-of-data.  A `$` just before a final newline is subsumed because a
newline is whitespace. -/

/-- The trailing `(\s|$)` group, tried at offset `p`; returns the match
end. -/
def trailEndAt (l : List Nat) (p : Nat) : Option Nat :=
  if p < l.length then (if isWsB (l.getD p 0) then some (p + 1) else none)
  else if p = l.length then some p else none

/-- `(\s|^)w(\s|$)` tried at offset `i`; returns the match end. -/
def wordMatchAt (w l : List Nat) (i : Nat) : Option Nat :=
  (if i < l.length && isWsB (l.getD i 0) && ciWordAt w l (i + 1) then
    trailEndAt l (i + 1 + w.length)
  else none).orElse (fun _ =>
    if i = 0 && ciWordAt w l 0 then trailEndAt l w.length else none)

/-- Leftmost match of `(\s|^)w(\s|$)`. -/
def wordSearch (w l : List Nat) : Option (Nat × Nat) :=
  (List.range l.length).findSome? (fun i =>
    (wordMatchAt w l i).map (fun e => (i, e)))

/-- `(\s|^)(w1|w2|…)(\s|$)` tried at offset `i`: the word alternatives are
tried in order under the whitespace lead, then in order under the `^`
lead. -/
def wordsMatchAt (ws : List (List Nat)) (l : List Nat) (i : Nat) : Option Nat :=
  (if i < l.length && isWsB (l.getD i 0) then
    ws.findSome? (fun w =>
      if ciWordAt w l (i + 1) then trailEndAt l (i + 1 + w.length) else none)
  else none).orElse (fun _ =>
    if i = 0 then
      ws.findSome? (fun w =>
        if ciWordAt w l 0 then trailEndAt l w.length else none)
    else none)

/-- Leftmost match of a keyword alternation. -/
def wordsSearch (ws : List (List Nat)) (l : List Nat) : Option (Nat × Nat) :=
  (List.range l.length).findSome? (fun i =>
    (wordsMatchAt ws l i).map (fun e => (i, e)))

/-- Leftmost occurrence of a single byte. -/
def byteSearch (b : Nat) (l : List Nat) : Option Nat := l.findIdx? (· = b)

/-- Leftmost occurrence of a literal byte sequence (the compiled end
patterns are all literal). -/
def seqSearch (pat l : List Nat) : Option (Nat × Nat) :=
  ((List.range (l.length + 1)).find? (fun i => (l.drop i).take pat.length = pat)).map
    (fun i => (i, i + pat.length))

/-- The closing delimiter substitution for `q'X…X'` literals
(`_re_objects_body` `substitutes`): the four opening brackets map to their
closing counterparts, every other byte to itself (regex-escaping does not
change the byte). -/
def closeOf (d : Nat) : Nat :=
  if d = 91 then 93 else if d = 123 then 125
  else if d = 60 then 62 else if d = 40 then 41 else d

/-- Leftmost match of `q'(.)` (case-insensitive; `.` excludes newline):
position and captured delimiter byte. -/
def qLitSearch (l : List Nat) : Option (Nat × Nat) :=
  ((List.range l.length).find? (fun i =>
    (l.getD i 0 = 113 || l.getD i 0 = 81) && l.getD (i + 1) 0 = 39
      && i + 2 < l.length && l.getD (i + 2) 0 ≠ 10)).map
    (fun i => (i, l.getD (i + 2) 0))

/-- Leftmost match of `(\s|^)\-\-`: position and end. -/
def dashCommentSearch (l : List Nat) : Option (Nat × Nat) :=
  (List.range l.length).findSome? (fun i =>
    if i < l.length && isWsB (l.getD i 0) && l.getD (i + 1) 0 = 45
        && l.getD (i + 2) 0 = 45 && i + 2 < l.length then
      some (i, i + 3)
    else if i = 0 && l.getD 0 0 = 45 && l.getD 1 0 = 45 && 1 < l.length then
      some (0, 2)
    else none)

/-- Leftmost occurrence of `/*`. -/
def slashStarSearch (l : List Nat) : Option (Nat × Nat) :=
  ((List.range l.length).find? (fun i =>
    l.getD i 0 = 47 && l.getD (i + 1) 0 = 42 && i + 1 < l.length)).map
    (fun i => (i, i + 2))

/-- A match produced by `_search_regexp_on_dict`: dictionary key, span, and
the compiled end pattern (`None` for the declaration keywords). -/
structure MatchRes where
  ctx : Ctx
  s : Nat
  e : Nat
  endPat : Option (List Nat)
deriving DecidableEq, Repr

/-- `_search_regexp_on_dict` keeps the first candidate found and replaces it
only by a strictly earlier one, so on ties the earlier dictionary entry
wins. -/
def keepEarlier (cur new : Option MatchRes) : Option MatchRes :=
  match cur, new with
  | none, n => n
  | some c, none => some c
  | some c, some n => if n.s < c.s then some n else some c

/-- `_search_declaration_regx`: the `_re_objects_decl` dictionary in
insertion order `create, or, replace, object_type, as, wrapped`. -/
def searchDecl (l : List Nat) : Option MatchRes :=
  [((wordSearch (bs "create") l).map (fun p => MatchRes.mk .create p.1 p.2 none)),
   ((wordSearch (bs "or") l).map (fun p => MatchRes.mk .orK p.1 p.2 none)),
   ((wordSearch (bs "replace") l).map (fun p => MatchRes.mk .replaceK p.1 p.2 none)),
   ((wordsSearch [bs "function", bs "procedure", bs "package", bs "body",
      bs "trigger"] l).map (fun p => MatchRes.mk .objectType p.1 p.2 none)),
   ((wordsSearch [bs "as", bs "is"] l).map (fun p => MatchRes.mk .asK p.1 p.2 none)),
   ((wordSearch (bs "wrapped") l).map (fun p => MatchRes.mk .wrappedK p.1 p.2 none))
  ].foldl keepEarlier none

/-- `_search_body_regx`: the `_re_objects_body` dictionary in insertion order
`object_name, literal, comment`, each key trying its alternatives in list
order. -/
def searchBody (l : List Nat) : Option MatchRes :=
  let objName := (byteSearch 34 l).map (fun i => MatchRes.mk .objectName i (i + 1) (some [34]))
  let litQ := (qLitSearch l).map (fun p => MatchRes.mk .literal p.1 (p.1 + 3) (some [closeOf p.2, 39]))
  let litS := (byteSearch 39 l).map (fun i => MatchRes.mk .literal i (i + 1) (some [39]))
  let cmD := (dashCommentSearch l).map (fun p => MatchRes.mk .comment p.1 p.2 (some [10]))
  let cmS := (slashStarSearch l).map (fun p => MatchRes.mk .comment p.1 p.2 (some [42, 47]))
  [objName, keepEarlier litQ litS, keepEarlier cmD cmS].foldl keepEarlier none

/-- `_search_combine_regex`: declaration dictionary first; a body match
replaces it only when strictly earlier. -/
def searchCombine (l : List Nat) : Option MatchRes :=
  keepEarlier (searchDecl l) (searchBody l)

/-- Python `\w` on bytes: `[A-Za-z0-9_]`. -/
def isWordByte (b : Nat) : Bool :=
  (48 ≤ b && b ≤ 57) || (65 ≤ b && b ≤ 90) || (97 ≤ b && b ≤ 122) || b = 95

/-- `_append_object_name`. -/
def appendObjectName (st : NState) (line : List Nat) : Except NErr NState :=
  let toApp0 := upperB line
  let toApp1 := if st.objectNameRemoveQuotes then toApp0.filter (· ≠ 34) else toApp0
  let toApp :=
    if !st.objectNameStarted then toApp1.takeWhile (fun b => !isWsB b) else toApp1
  let st1 :=
    if !st.objectNameStarted then { st with objectNameAppend := anySpaceB line } else st
  if toApp.isEmpty then .ok st1
  else if utf8Valid toApp then
    .ok { st1 with objectName :=
      match st1.objectName with
      | none => some toApp
      | some n => if n.isEmpty then some toApp else some (n ++ toApp) }
  else .error (.normErr .nonAsciiObjectName)

/-- `_filter_content`. -/
def filterContent (flags : List NFlag) (st : NState) (line : List Nat) :
    Except NErr (List Nat × NState) := do
  if NFlag.commentsOnly ∈ flags then
    if st.commentStarted then return (line, st)
    let st ← if st.objectNameAppend then appendObjectName st line else pure st
    return ([], st)
  if st.commentStarted then
    if NFlag.noComments ∈ flags then return ([], st)
    if !st.asFound && !st.wrapped then return ([], st)
    return (line, st)
  if !st.createFound then return ([], st)
  let st ← if st.objectNameAppend then appendObjectName st line else pure st
  if st.objectNameStarted then
    let l1 := if NFlag.uppercase ∈ flags || (st.createFound && !st.asFound)
      then upperB line else line
    let l2 := if st.objectNameRemoveQuotes then l1.filter (· ≠ 34) else l1
    return (l2, st)
  if st.literalStarted then
    if NFlag.noLiterals ∈ flags then return ([], st) else return (line, st)
  let l1 := if (upperB (lstripB line)).take 6 = bs "CREATE" then lstripB line else line
  let l2 := if NFlag.uppercase ∈ flags || (st.createFound && !st.asFound)
    then upperB l1 else l1
  let l3 := if NFlag.noSpaces ∈ flags || (st.createFound && !st.asFound)
    then anySpaceSubB l2 else l2
  return (l3, st)

/-- `_join_line`. -/
def joinLine (flags : List NFlag) (st : NState)
    (bBefore bJoining bAfter : List Nat) (ctx : Option Ctx) (start : Bool) :
    List Nat :=
  if NFlag.noSpaces ∉ flags ∧
      (st.asFound || st.wrapped
        || (ctx = some Ctx.comment && NFlag.commentsOnly ∈ flags)) then
    bBefore ++ bJoining ++ bAfter
  else
    let see : Bool :=
      ctx = some Ctx.objectName || ctx = some Ctx.literal || ctx = some Ctx.comment
    let b0 := if !see || (see && start) then anySpaceSubB bBefore else bBefore
    let j0 := if !see then anySpaceSubB bJoining else bJoining
    let j1 := if (endSpaceB b0 && !see) || (see && start) then lstripB j0 else j0
    let r0 := b0 ++ j1
    let r1 :=
      if endSpaceB r0 && startSpaceB bAfter
          && (!see || (see && !start) || j1.isEmpty) then rstripB r0 else r0
    r1 ++ bAfter

/-- The `object_type` assignment step of `_normalize_line` (declaration
phase, lines 554–562): `_joining` upper-cased; a first token is assigned, a
`BODY` token upgrades a recorded `PACKAGE`, anything else raises
`UnsupportedObjectType`.  Takes the already upper-cased joining. -/
def objectTypeJoin (cur : Option (List Nat)) (joiningUpper : List Nat) :
    Except NErr (List Nat) :=
  let tok := stripB joiningUpper
  if !pyTruthyO cur then .ok tok
  else if tok = bs "BODY" ∧ cur = some (bs "PACKAGE") then
    .ok (cur.getD [] ++ [32] ++ tok)
  else .error (.normErr .unsupportedObjectType)

/-- The first word of a line taken as the object name when no pattern matched
(`list(self._re_any_space.split(line.strip().upper())).pop(0)`). -/
def firstWordUpper (l : List Nat) : List Nat :=
  (upperB (stripB l)).takeWhile (fun b => !isWsB b)

/-- `_normalize_line` lines 479–487: when no pattern matched, take the first
word of the stripped line as the object name if the type is known but the
name is not (a decode failure is wrapped into
`PLSQLNormalizationError`). -/
def setNameNoMatch (st : NState) (line : List Nat) : Except NErr NState :=
  if pyTruthyO st.objectType && !pyTruthyO st.objectName
      && !(stripB line).isEmpty then
    let w := firstWordUpper line
    if utf8Valid w then .ok { st with objectName := some w }
    else .error (.normErr .nonAsciiObjectName)
  else .ok st

/-- `_normalize_line` lines 500–504: when the filtered bytes before a match
are non-empty and the type is known but the name is not, the first word of
those bytes becomes the object name (line 504 decodes without a `try`, so a
failure is a raw `UnicodeDecodeError`). -/
def setNameFromBefore (st : NState) (lineBefore : List Nat) : Except NErr NState :=
  if !lineBefore.isEmpty && pyTruthyO st.objectType
      && !pyTruthyO st.objectName then
    let w := firstWordUpper lineBefore
    if utf8Valid w then .ok { st with objectName := some w }
    else .error .unicodeDecodeErr
  else .ok st

/-- `_normalize_line` lines 506–585: the dispatch on the matched context.
Returns the (possibly upper-cased or left-trimmed) joining and the updated
state. -/
def normDispatch (flags : List NFlag) (st : NState) (m : MatchRes)
    (joining0 lineAfter : List Nat) : Except NErr (List Nat × NState) :=
  match m.ctx with
  | .comment =>
    let j := if NFlag.commentsOnly ∈ flags then lstripB joining0 else joining0
    .ok (j, { st with commentStarted := true })
  | .objectName =>
    let st := { st with objectNameStarted := true }
    if st.createFound && !st.asFound then
      let st := { st with objectNameAppend := true }
      let st :=
        match seqSearch (m.endPat.getD []) lineAfter with
        | some (es, _) =>
          if (lineAfter.take es).all isWordByte then
            { st with objectNameRemoveQuotes := true }
          else st
        | none => st
      .ok (joining0, st)
    else .ok (joining0, st)
  | .literal => .ok (joining0, { st with literalStarted := true })
  | c =>
    if !st.createFound then
      if c = Ctx.create then .ok (joining0, { st with createFound := true })
      else .ok (joining0, st)
    else if !st.asFound then
      match c with
      | .orK => .ok (joining0, { st with orFound := true })
      | .replaceK =>
        if !st.orFound then .error (.normErr .replaceBeforeOr)
        else .ok (joining0, { st with replaceFound := true })
      | .objectType =>
        match objectTypeJoin st.objectType (upperB joining0) with
        | .error e => .error e
        | .ok t => .ok (upperB joining0, { st with objectType := some t })
      | .asK =>
        if !pyTruthyO st.objectType then .error (.normErr .keywordWithoutObjectType)
        else if !pyTruthyO st.objectName then .error (.normErr .keywordWithoutObjectName)
        else .ok (upperB joining0, { st with asFound := true })
      | .wrappedK =>
        if !pyTruthyO st.objectType then .error (.normErr .keywordWithoutObjectType)
        else if !pyTruthyO st.objectName then .error (.normErr .keywordWithoutObjectName)
        else .ok (upperB joining0, { st with wrapped := true })
      | .create => .error (.normErr .duplicateCreate)
      | _ => .ok (joining0, st)
    else
      if c = Ctx.create || c = Ctx.replaceK || c = Ctx.wrappedK then
        .error (.normErr .keywordInsideBody)
      else .ok (joining0, st)

/-- `_normalize_line` lines 451–465: the adjustments after an end pattern
closed a context (newline bookkeeping for comments, dropping the
remove-quotes flag for object names).  Returns updated joining, remaining
line and state. -/
def closeCtxAdjust (flags : List NFlag) (ctx : Option Ctx) (st : NState)
    (joining joiningOrig lineAfter : List Nat) :
    List Nat × List Nat × NState :=
  if ctx = some Ctx.comment then
    let lineAfter :=
      if (NFlag.noComments ∈ flags || !st.asFound)
          && joiningOrig.getLast? = some 10 then 10 :: lineAfter
      else lineAfter
    let joining :=
      if NFlag.commentsOnly ∈ flags && joining.getLast? ≠ some 10 then
        joining ++ [10]
      else joining
    (joining, lineAfter, st)
  else if ctx = some Ctx.objectName then
    (joining, lineAfter,
     if st.objectNameRemoveQuotes then
       { st with objectNameRemoveQuotes := false }
     else st)
  else (joining, lineAfter, st)

/-- `_normalize_line`, fuel-driven.  Every recursive call processes the bytes
after a non-empty match, so the recursion depth is bounded by the line
length; callers pass `line.length + 1` and the zero-fuel branch plays the
role of Python's `RecursionError` (which `_is_props_g` catches). -/
def normalizeLine (flags : List NFlag) :
    Nat → NState → List Nat → Except NErr (List Nat × NState)
  | 0, _, _ => .error .recursionErr
  | _, st, [] => .ok ([], st)
  | fuel + 1, st, line0 => do
    let line := line0.filter (fun b => b ≠ 13)
    if st.wrapped then
      if (searchDecl line).isSome then .error (.normErr .wrongWrappedContent)
      else if NFlag.commentsOnly ∈ flags then .ok ([], st)
      else .ok (line, st)
    else if anythingStarted st then
      match seqSearch (st.reEndobj.getD []) line with
      | none => filterContent flags st line
      | some (ms, me) => do
        let (lineBefore, st) ← filterContent flags st (line.take ms)
        let joiningOrig := sliceB line ms me
        let (joining, st) ←
          if parsecontext st ≠ some Ctx.literal ∨ NFlag.commentsOnly ∈ flags then
            filterContent flags st joiningOrig
          else pure (joiningOrig, st)
        let ctx := parsecontext st
        let st := resetParseFlags st
        let (joining, lineAfter, st) :=
          closeCtxAdjust flags ctx st joining joiningOrig (line.drop me)
        let (lineAfter, st) ← normalizeLine flags fuel st lineAfter
        .ok (joinLine flags st lineBefore joining lineAfter ctx false, st)
    else
      match searchCombine line with
      | none => do
        let st ← setNameNoMatch st line
        filterContent flags st line
      | some m => do
        let (lineBefore, st) ← filterContent flags st (line.take m.s)
        let joining0 := sliceB line m.s m.e
        let lineAfter := line.drop m.e
        let st := { st with reEndobj := m.endPat }
        let st ← setNameFromBefore st lineBefore
        let (joining, st) ← normDispatch flags st m joining0 lineAfter
        let (joining, st) ←
          if m.ctx ≠ Ctx.literal ∨ NFlag.commentsOnly ∈ flags then
            filterContent flags st joining
          else pure (joining, st)
        let (lineAfter, st) ← normalizeLine flags fuel st lineAfter
        .ok (joinLine flags st lineBefore joining lineAfter (some m.ctx) true, st)

/-- `re.search(b'(^|\s+)\/(\s+)?(\n)?$', l)` is truthy iff the last
non-whitespace byte is a slash that is either the first byte or preceded by
whitespace. -/
def reAddSlashB (l : List Nat) : Bool :=
  let t := rstripB l
  match t.getLast? with
  | some 47 => t.length = 1 || isWsB (t.getD (t.length - 2) 0)
  | _ => false

/-- `if lines and _lines >= lines:` (a zero line limit is falsy). -/
def limitHit (limit : Option Nat) (count : Nat) : Bool :=
  match limit with
  | none => false
  | some n => n ≠ 0 && n ≤ count

deriving instance DecidableEq for Except

/-- Result of the `normalize` line loop: the bytes written to `write_to` so
far, the final add-slash flag and parse state (or the propagated error), and
the input stream. -/
structure LoopRes where
  written : List Nat
  res : Except NErr (Bool × NState)
  stream : PyStream
deriving DecidableEq, Repr

/-- The `while True` line loop of `normalize` (lines 665–715), fuel-driven
(every iteration consumes at least one input byte, so the fuel passed by
`normalizeStream` always suffices). -/
def normalizeLoop (flags : List NFlag) (limit : Option Nat) :
    Nat → PyStream → NState → List Nat → Bool → Bool → Nat → LoopRes
  | 0, s, _, written, _, _, _ => ⟨written, .error .recursionErr, s⟩
  | fuel + 1, s, st, written, addSlash, endSp, count =>
    let (line, s1) := readline s
    if line = [] then ⟨written, .ok (addSlash, st), s1⟩
    else
      let as0 := st.asFound
      let wr0 := st.wrapped
      let any0 := anythingStarted st
      match normalizeLine flags (line.length + 1) st line with
      | .error e => ⟨written, .error e, s1⟩
      | .ok (norm, st1) =>
        let (written1, norm1) :=
          if NFlag.noSpaces ∈ flags || (!as0 && !wr0) then
            if !endSp && !any0 && !startSpaceB norm then (written ++ [32], norm)
            else if endSp && startSpaceB norm then (written, lstripB norm)
            else (written, norm)
          else (written, norm)
        let written2 := written1 ++ norm1
        let count1 := count + 1
        if limitHit limit count1 then ⟨written2, .ok (false, st1), s1⟩
        else
          let addSlash1 :=
            if NFlag.commentsOnly ∉ flags ∧ ¬(stripB norm1).isEmpty then
              !reAddSlashB norm1
            else addSlash
          let endSp1 :=
            if (NFlag.noSpaces ∈ flags || (!wr0 && !as0)) && !any0
                && !norm1.isEmpty then
              (if (stripB norm1).isEmpty then endSp else endSpaceB norm1)
            else true
          normalizeLoop flags limit fuel s1 st1 written2 addSlash1 endSp1 count1

/-- Result of `normalize`: bytes written to the output, the final parse state
or error, and the input stream. -/
structure NRes where
  written : List Nat
  res : Except NErr NState
  stream : PyStream
deriving DecidableEq, Repr

/-- The statement terminator appended when `_add_slash` survives the loop. -/
def slashTerm (flags : List NFlag) : List Nat :=
  if NFlag.noSpaces ∉ flags then bs "\n\n/" else bs " /"

/-- `_add_slash` is initially set unless comments only are printed. -/
def initAddSlash (flags : List NFlag) : Bool := NFlag.commentsOnly ∉ flags

/-- The line loop as started by `normalize`: seek to position 0, fresh state,
nothing written, `_add_slash` per flags, `_end_space = True`, zero lines. -/
def runLoop (s0 : PyStream) (flags : List NFlag) (limit : Option Nat) : LoopRes :=
  normalizeLoop flags limit (s0.data.length + 1) { s0 with pos := 0 }
    initNState [] (initAddSlash flags) true 0

/-- `PLSQLNormalizer.normalize` on a file-like input: reset, check the flags
(before any stream operation), record the entry position, seek to the start,
run the line loop, append the statement terminator if due, seek back to the
entry position, and finally check that an object type and name were
parsed. An error raised inside the loop propagates without the restoring
seek. -/
def normalizeStream (s0 : PyStream) (flags : List NFlag) (limit : Option Nat) :
    NRes :=
  match checkFlags flags with
  | .error e => ⟨[], .error e, s0⟩
  | .ok _ =>
    let lr := runLoop s0 flags limit
    match lr.res with
    | .error e => ⟨lr.written, .error e, lr.stream⟩
    | .ok (slash, st) =>
      let w := if slash then lr.written ++ slashTerm flags else lr.written
      let s1 := { lr.stream with pos := s0.pos }
      if !pyTruthyO st.objectType then ⟨w, .error (.normErr .objectTypeNotParsed), s1⟩
      else if !pyTruthyO st.objectName then ⟨w, .error (.normErr .objectNameNotParsed), s1⟩
      else ⟨w, .ok st, s1⟩

/-- `normalize` on a `bytes` input with `write_to` omitted: the input is
copied to a fresh temporary file (position 0) and the output buffer is read
back and returned. -/
def normalizeBytes (input : List Nat) (flags : List NFlag) (limit : Option Nat) :
    Except NErr (List Nat) :=
  let r := normalizeStream ⟨input, 0⟩ flags limit
  r.res.map (fun _ => r.written)

/-- `_fl_full()`: the full flag list. -/
def flFull : List NFlag := [.noComments, .noSpaces, .uppercase]

/-- `_is_props_g`: run `normalize` with the full flags plus `no_literals`
into a discarded sink; `PLSQLNormalizationError` and `RecursionError` reset
the state, anything else propagates. -/
def isPropsG (input : List Nat) : Except NErr NState :=
  match (normalizeStream ⟨input, 0⟩ (flFull ++ [.noLiterals]) none).res with
  | .ok st => .ok st
  | .error e => if catchable e then .ok initNState else .error e

/-- `is_sql`. -/
def isSql (input : List Nat) : Except NErr Bool :=
  (isPropsG input).map (fun st =>
    st.createFound && pyTruthyO st.objectType && pyTruthyO st.objectName)

/-- `is_wrapped`. -/
def isWrapped (input : List Nat) : Except NErr Bool :=
  (isPropsG input).map (fun st =>
    st.createFound && pyTruthyO st.objectType && pyTruthyO st.objectName
      && st.wrapped)

/-- `is_wrappable`. -/
def isWrappable (input : List Nat) : Except NErr Bool :=
  (isPropsG input).map (fun st =>
    st.createFound && pyTruthyO st.objectType && pyTruthyO st.objectName
      && (lowerB (st.objectType.getD [])
            ∈ [bs "procedure", bs "function", bs "package body"])
      && st.asFound)

/-! ## Theorems -/

theorem foldl_append_eq_map (f : Nat → Nat) :
    ∀ (l acc : List Nat), l.foldl (fun a c => a ++ [f c]) acc = acc ++ l.map f := by
  intro l
  induction l with
  | nil => intro acc; simp
  | cons c t ih => intro acc; simp [ih]

/-- C2: for every base64 payload block, the decoded bytes are computed
exactly as the spec states: base64-decode, drop the first 20 decoded bytes,
substitute each remaining byte through the fixed 256-entry table (beginning
`0x3d, 0x65, 0x85` and ending `…, 0x1b, 0xf7, 0xce`), and zlib-inflate the
substituted sequence; the source decoder `decodeBase64Package` coincides with
the spec formula `specUnwrapDecode` for all payloads and all behaviours of
the external base64 and zlib primitives. -/
theorem decode_base64_package_is_spec :
    charmap.length = 256 ∧
    charmap.take 3 = [0x3d, 0x65, 0x85] ∧
    charmap.drop 253 = [0x1b, 0xf7, 0xce] ∧
    ∀ (b64 inflate : List Nat → Except Unit (List Nat)) (pkg : List Nat),
      decodeBase64Package b64 inflate pkg = specUnwrapDecode b64 inflate pkg := by
  refine ⟨by decide, by decide, by decide, ?_⟩
  intro b64 inflate pkg
  unfold decodeBase64Package specUnwrapDecode
  cases hb : b64 pkg with
  | error e => rfl
  | ok dec => simp [foldl_append_eq_map]

/-- C5: in declaration phase, an `object_type` token sets the upper-cased
token as the object type when none is recorded; a `BODY` token upgrades a
recorded `PACKAGE` to `PACKAGE BODY`; any other second token fails with the
unsupported-object-type error. -/
theorem object_type_token_step :
    ∀ (cur : Option (List Nat)) (j : List Nat),
      (pyTruthyO cur = false →
        objectTypeJoin cur (upperB j) = .ok (stripB (upperB j))) ∧
      (cur = some (bs "PACKAGE") → stripB (upperB j) = bs "BODY" →
        objectTypeJoin cur (upperB j) = .ok (bs "PACKAGE BODY")) ∧
      (pyTruthyO cur = true →
        ¬(stripB (upperB j) = bs "BODY" ∧ cur = some (bs "PACKAGE")) →
        objectTypeJoin cur (upperB j) = .error (.normErr .unsupportedObjectType)) := by
  intro cur j
  refine ⟨?_, ?_, ?_⟩
  · intro h
    unfold objectTypeJoin
    simp [h]
  · intro hc ht
    subst hc
    unfold objectTypeJoin
    simp [ht, pyTruthyO, bs]
  · intro ht hn
    unfold objectTypeJoin
    simp [ht]
    intro h1 h2
    exact absurd ⟨h1, h2⟩ hn

/-- Witness for C5 at concrete inputs. -/
theorem object_type_token_step_witness :
    objectTypeJoin none (upperB (bs " procedure ")) = .ok (bs "PROCEDURE") ∧
    objectTypeJoin (some (bs "PACKAGE")) (upperB (bs " body ")) = .ok (bs "PACKAGE BODY") ∧
    objectTypeJoin (some (bs "PACKAGE")) (upperB (bs " trigger ")) =
      .error (.normErr .unsupportedObjectType) := by
  refine ⟨?_, ?_, ?_⟩
  · have h := (object_type_token_step none (bs " procedure ")).1 (by decide)
    rw [h]; decide
  · exact (object_type_token_step (some (bs "PACKAGE")) (bs " body ")).2.1 rfl (by decide)
  · exact (object_type_token_step (some (bs "PACKAGE")) (bs " trigger ")).2.2
      (by decide) (by decide)

theorem one_lt_length_of_two_mem {α : Type} {a b : α} {l : List α}
    (ha : a ∈ l) (hb : b ∈ l) (hne : a ≠ b) : 1 < l.length := by
  match l with
  | [] => cases ha
  | [x] =>
    simp at ha hb
    exact absurd (ha.trans hb.symm) hne
  | x :: y :: t => simp

/-- C4: flag validation happens before any input byte is read: when
`NO_SPACES` is present without `NO_COMMENTS`, or `COMMENTS_ONLY` is present
together with any other flag, `normalize` fails with one of the two
configuration errors, writes nothing to the output, and leaves the input
stream untouched. -/
theorem flags_checked_before_input :
    ∀ (flags : List NFlag) (s : PyStream) (limit : Option Nat),
      ((NFlag.noSpaces ∈ flags ∧ NFlag.noComments ∉ flags) ∨
        (NFlag.commentsOnly ∈ flags ∧ ∃ f ∈ flags, f ≠ NFlag.commentsOnly)) →
      normalizeStream s flags limit =
          ⟨[], .error (.normErr .noSpacesWithoutNoComments), s⟩ ∨
      normalizeStream s flags limit =
          ⟨[], .error (.normErr .commentsOnlyConflict), s⟩ := by
  intro flags s limit h
  by_cases h1 : NFlag.noComments ∉ flags ∧ NFlag.noSpaces ∈ flags
  · left
    unfold normalizeStream checkFlags
    simp [h1]
  · right
    have h2 : NFlag.commentsOnly ∈ flags ∧ ∃ f ∈ flags, f ≠ NFlag.commentsOnly := by
      rcases h with h | h
      · exact absurd ⟨h.2, h.1⟩ h1
      · exact h
    obtain ⟨hco, f, hf, hfne⟩ := h2
    have hlen : 1 < flags.length := one_lt_length_of_two_mem hf hco hfne
    unfold normalizeStream checkFlags
    simp [h1, hco, hlen]

/-- Witness for C4 at a concrete flag set and input. -/
theorem flags_checked_before_input_witness :
    normalizeStream ⟨bs "create procedure p as x", 0⟩ [NFlag.noSpaces] none =
        ⟨[], .error (.normErr .noSpacesWithoutNoComments), ⟨bs "create procedure p as x", 0⟩⟩ ∨
    normalizeStream ⟨bs "create procedure p as x", 0⟩ [NFlag.noSpaces] none =
        ⟨[], .error (.normErr .commentsOnlyConflict), ⟨bs "create procedure p as x", 0⟩⟩ :=
  flags_checked_before_input [NFlag.noSpaces] ⟨bs "create procedure p as x", 0⟩ none
    (Or.inl ⟨by decide, by decide⟩)

/-- C6: when the line loop reaches end-of-input without both an object type
and an object name parsed, `normalize` raises the missing-object-metadata
error; in particular, on empty input, `normalize` raises it for every flag
set that passes validation. -/
theorem missing_metadata_error :
    (∀ (s : PyStream) (flags : List NFlag) (limit : Option Nat) (w : List Nat)
       (slash : Bool) (st : NState) (s1 : PyStream),
      checkFlags flags = .ok () →
      runLoop s flags limit = ⟨w, .ok (slash, st), s1⟩ →
      (pyTruthyO st.objectType = false ∨ pyTruthyO st.objectName = false) →
      ((normalizeStream s flags limit).res = .error (.normErr .objectTypeNotParsed) ∨
       (normalizeStream s flags limit).res = .error (.normErr .objectNameNotParsed))) ∧
    (∀ (flags : List NFlag) (limit : Option Nat),
      checkFlags flags = .ok () →
      (normalizeStream ⟨[], 0⟩ flags limit).res =
        .error (.normErr .objectTypeNotParsed)) := by
  constructor
  · intro s flags limit w slash st s1 hcf hloop hmiss
    unfold normalizeStream
    rw [hcf, hloop]
    by_cases ht : pyTruthyO st.objectType
    · have hn : pyTruthyO st.objectName = false := by
        rcases hmiss with h | h
        · exact absurd h (by simp [ht])
        · exact h
      right
      simp [ht, hn]
    · left
      simp [ht]
  · intro flags limit hcf
    have hloop : runLoop ⟨[], 0⟩ flags limit =
        ⟨[], .ok (initAddSlash flags, initNState), ⟨[], 0⟩⟩ := by
      unfold runLoop normalizeLoop readline takeLine
      simp
    unfold normalizeStream
    rw [hcf, hloop]
    simp [pyTruthyO, initNState]

/-- Witness for C6: empty input with the empty (valid) flag list. -/
theorem missing_metadata_error_witness :
    (normalizeStream ⟨[], 0⟩ [] none).res = .error (.normErr .objectTypeNotParsed) :=
  missing_metadata_error.2 [] none rfl

/-- C10: normalization to an explicit output sink is not atomic on the
missing-metadata error: whenever the loop completes with the object type or
name missing, the full normalized stream — including the statement terminator
when `_add_slash` is still set — has been written to the output, and only
then does the call fail with the missing-metadata error. -/
theorem partial_output_on_missing_metadata :
    ∀ (s : PyStream) (flags : List NFlag) (limit : Option Nat) (w : List Nat)
      (slash : Bool) (st : NState) (s1 : PyStream),
      checkFlags flags = .ok () →
      runLoop s flags limit = ⟨w, .ok (slash, st), s1⟩ →
      (pyTruthyO st.objectType = false ∨ pyTruthyO st.objectName = false) →
      (normalizeStream s flags limit).written =
          (if slash then w ++ slashTerm flags else w) ∧
      ((normalizeStream s flags limit).res = .error (.normErr .objectTypeNotParsed) ∨
       (normalizeStream s flags limit).res = .error (.normErr .objectNameNotParsed)) := by
  intro s flags limit w slash st s1 hcf hloop hmiss
  constructor
  · unfold normalizeStream
    rw [hcf, hloop]
    by_cases ht : pyTruthyO st.objectType <;>
      by_cases hn : pyTruthyO st.objectName <;> simp [ht, hn]
  · unfold normalizeStream
    rw [hcf, hloop]
    by_cases ht : pyTruthyO st.objectType
    · have hn : pyTruthyO st.objectName = false := by
        rcases hmiss with h | h
        · exact absurd h (by simp [ht])
        · exact h
      right; simp [ht, hn]
    · left; simp [ht]

/-- Witness for C10: empty input, empty flag list; the loop writes nothing,
the terminator `\n\n/` is appended, and the call then fails. -/
theorem partial_output_on_missing_metadata_witness :
    (normalizeStream ⟨[], 0⟩ [] none).written = (if true then [] ++ slashTerm [] else []) ∧
    ((normalizeStream ⟨[], 0⟩ [] none).res = .error (.normErr .objectTypeNotParsed) ∨
     (normalizeStream ⟨[], 0⟩ [] none).res = .error (.normErr .objectNameNotParsed)) :=
  partial_output_on_missing_metadata ⟨[], 0⟩ [] none [] true initNState ⟨[], 0⟩
    rfl (by decide) (Or.inl (by decide))

/-- C9: on a successful return, both `normalize` and `unwrap_buf` restore a
file-like input stream to the read position it had at call entry, even though
both seek to the start of the stream to process it. -/
theorem stream_position_restored :
    (∀ (s : PyStream) (flags : List NFlag) (limit : Option Nat) (st : NState),
      (normalizeStream s flags limit).res = .ok st →
      (normalizeStream s flags limit).stream.pos = s.pos) ∧
    (∀ (b64 inflate : List Nat → Except Unit (List Nat)) (s : PyStream)
       (out : List Nat),
      (unwrapStream b64 inflate s).1 = .ok out →
      (unwrapStream b64 inflate s).2.pos = s.pos) := by
  constructor
  · intro s flags limit st h
    cases hcf : checkFlags flags with
    | error e => simp [normalizeStream, hcf] at h
    | ok u =>
      cases u
      cases hres : (runLoop s flags limit).res with
      | error e => simp [normalizeStream, hcf, hres] at h
      | ok p =>
        obtain ⟨slash, st0⟩ := p
        by_cases ht : pyTruthyO st0.objectType <;>
          by_cases hn : pyTruthyO st0.objectName <;>
            simp [normalizeStream, hcf, hres, ht, hn]
  · intro b64 inflate s out h
    cases hl : unwrapLoop b64 inflate (s.data.length + 1) { s with pos := 0 }
        ⟨[], [], [], [], [], []⟩ with
    | mk res s1 =>
      cases res with
      | error e => simp [unwrapStream, hl] at h
      | ok st => simp [unwrapStream, hl]

/-- Witness for C9 at concrete successful calls entered at non-zero stream
positions. -/
theorem stream_position_restored_witness :
    (normalizeStream ⟨bs "create procedure p as x", 3⟩ [] none).stream.pos = 3 ∧
    (unwrapStream (fun l => .ok l) (fun l => .ok l) ⟨bs "no decl here", 2⟩).2.pos = 2 :=
  ⟨stream_position_restored.1 ⟨bs "create procedure p as x", 3⟩ [] none
     ⟨false, false, false, false, true, false, false, true,
      some (bs "PROCEDURE"), some (bs "P"), none, false, false⟩ (by decide),
   stream_position_restored.2 (fun l => .ok l) (fun l => .ok l) ⟨bs "no decl here", 2⟩
     [] (by decide)⟩

/-- C3 counterexample: an error-free normalization whose emitted stream does
not end with the claimed terminator.  The last line of the input already ends
with a slash statement, `_re_add_slash` matches it, and no `\n\n/` is
appended (flags are empty, so neither `NO_SPACES` nor `COMMENTS_ONLY` is set
and no line limit is given). -/
theorem terminator_cex :
    normalizeBytes (bs "create procedure p as begin end;\n/\n") [] none =
      .ok (bs "CREATE PROCEDURE P AS begin end;\n/\n") ∧
    ¬ (bs "\n\n/" <:+ bs "CREATE PROCEDURE P AS begin end;\n/\n") := by
  constructor
  · decide
  · decide

theorem loop_slash_stays_false (flags : List NFlag) (limit : Option Nat)
    (hco : NFlag.commentsOnly ∈ flags) :
    ∀ (fuel : Nat) (s : PyStream) (st : NState) (written : List Nat)
      (endSp : Bool) (count : Nat) (w : List Nat) (slash : Bool)
      (st1 : NState) (s1 : PyStream),
      normalizeLoop flags limit fuel s st written false endSp count =
        ⟨w, .ok (slash, st1), s1⟩ →
      slash = false := by
  intro fuel
  induction fuel with
  | zero =>
    intro s st written endSp count w slash st1 s1 h
    simp [normalizeLoop] at h
  | succ fuel ih =>
    intro s st written endSp count w slash st1 s1 h
    rw [normalizeLoop] at h
    repeat' split at h
    all_goals
      first
        | (exact absurd hco (by assumption))
        | (simp at h; try tauto)
        | skip
    all_goals try (split at h)
    all_goals
      first
        | (simp at h; try tauto)
        | (simp only [hco, not_true_eq_false, false_and, if_false] at h
           exact ih _ _ _ _ _ _ _ _ _ h)
        | (simp [hco] at h
           exact ih _ _ _ _ _ _ _ _ _ h)

/-- C3 (amended): on every error-free normalization the appended statement
terminator is exactly `\n\n/` when `NO_SPACES` is not set (a single space and
`/` when it is), and it is appended exactly when the loop leaves `_add_slash`
set — which never happens under `COMMENTS_ONLY`, and does not happen when a
line limit truncated the input or when the last non-blank emitted line
already ended with a slash statement (`_re_add_slash` matched it). -/
theorem terminator_on_success :
    ∀ (s : PyStream) (flags : List NFlag) (limit : Option Nat) (st : NState)
      (w : List Nat) (slash : Bool) (st0 : NState) (s1 : PyStream),
      (normalizeStream s flags limit).res = .ok st →
      runLoop s flags limit = ⟨w, .ok (slash, st0), s1⟩ →
      (normalizeStream s flags limit).written =
          (if slash then w ++ slashTerm flags else w) ∧
      (slash = true → NFlag.noSpaces ∉ flags →
        bs "\n\n/" <:+ (normalizeStream s flags limit).written) ∧
      (slash = true → NFlag.noSpaces ∈ flags →
        bs " /" <:+ (normalizeStream s flags limit).written) ∧
      (NFlag.commentsOnly ∈ flags → slash = false) := by
  intro s flags limit st w slash st0 s1 h hloop
  cases hcf : checkFlags flags with
  | error e => simp [normalizeStream, hcf] at h
  | ok u =>
    cases u
    have hw : (normalizeStream s flags limit).written =
        (if slash then w ++ slashTerm flags else w) := by
      unfold normalizeStream
      rw [hcf, hloop]
      by_cases ht : pyTruthyO st0.objectType <;>
        by_cases hn : pyTruthyO st0.objectName <;> simp [ht, hn]
    refine ⟨hw, ?_, ?_, ?_⟩
    · intro hs hns
      rw [hw, hs]
      simp [slashTerm, hns]
    · intro hs hns
      rw [hw, hs]
      have : NFlag.noSpaces ∉ flags ↔ False := by simp [hns]
      simp [slashTerm, this]
    · intro hco
      have hinit : initAddSlash flags = false := by
        simp [initAddSlash, hco]
      rw [runLoop, hinit] at hloop
      exact loop_slash_stays_false flags limit hco _ _ _ _ _ _ _ _ _ _ hloop

/-- Witness for C3 at a concrete error-free run (empty flag set): the loop
leaves `_add_slash` set and the output ends with `\n\n/`. -/
theorem terminator_on_success_witness :
    (normalizeStream ⟨bs "create procedure p as x", 0⟩ [] none).written =
        (if true then bs "CREATE PROCEDURE P AS x" ++ slashTerm [] else
          bs "CREATE PROCEDURE P AS x") ∧
    (true = true → NFlag.noSpaces ∉ ([] : List NFlag) →
      bs "\n\n/" <:+ (normalizeStream ⟨bs "create procedure p as x", 0⟩ [] none).written) ∧
    (true = true → NFlag.noSpaces ∈ ([] : List NFlag) →
      bs " /" <:+ (normalizeStream ⟨bs "create procedure p as x", 0⟩ [] none).written) ∧
    (NFlag.commentsOnly ∈ ([] : List NFlag) → true = false) :=
  terminator_on_success ⟨bs "create procedure p as x", 0⟩ [] none
    ⟨false, false, false, false, true, false, false, true,
      some (bs "PROCEDURE"), some (bs "P"), none, false, false⟩
    (bs "CREATE PROCEDURE P AS x") true
    ⟨false, false, false, false, true, false, false, true,
      some (bs "PROCEDURE"), some (bs "P"), none, false, false⟩
    ⟨bs "create procedure p as x", 23⟩
    (by decide) (by decide)

/-- C8: normalization with the full flag set is not idempotent.  On
`create procedure p as begin null; end;\n` the first pass emits a trailing
space (from the final newline collapsed by `NO_SPACES`) and then appends
` /`, producing a two-space run `END;  /`; the second pass collapses that run
to a single space, so the outputs differ — the code contradicts both the
documented `no_spaces` guarantee (all whitespace runs collapsed to one
space) and the stated idempotence. -/
theorem normalize_not_idempotent :
    normalizeBytes (bs "create procedure p as begin null; end;\n")
        [.noComments, .noSpaces, .uppercase] none =
      .ok (bs "CREATE PROCEDURE P AS BEGIN NULL; END;  /") ∧
    normalizeBytes (bs "CREATE PROCEDURE P AS BEGIN NULL; END;  /")
        [.noComments, .noSpaces, .uppercase] none =
      .ok (bs "CREATE PROCEDURE P AS BEGIN NULL; END; /") ∧
    bs "CREATE PROCEDURE P AS BEGIN NULL; END;  /" ≠
      bs "CREATE PROCEDURE P AS BEGIN NULL; END; /" := by
  refine ⟨?_, ?_, ?_⟩ <;> decide

/-- C1 counterexample: an input whose declaration buffer never matches the
wrapped-declaration pattern makes `unwrap_buf` return successfully with empty
output — no `NotWrapped` (nor any other) error is raised.  The base64 and
zlib primitives are instantiated to always fail, showing they are never
invoked on this path. -/
theorem unwrap_missing_decl_no_error :
    (unwrapStream (fun _ => .error ()) (fun _ => .error ())
      ⟨bs "hello\nworld\n", 0⟩).1 = .ok [] := by
  decide

/-- C1 (amended): `unwrap_buf` defines no dedicated failure signals.  With no
matching wrapped declaration it returns empty output without error; when
end-of-input arrives before the announced number of base64 characters it
decodes the truncated block as-is (here: identity primitives succeed on the
partial payload, and a failing base64 primitive surfaces as the raw
`binascii` error); a zlib failure propagates as the raw `zlib.error`. -/
theorem unwrap_failure_behavior :
    (unwrapStream (fun _ => .error ()) (fun _ => .error ())
      ⟨bs "hello\nworld\n", 0⟩).1 = .ok [] ∧
    (unwrapStream (fun l => .ok l) (fun l => .ok l)
      ⟨bs "CREATE PROCEDURE p WRAPPED\n1 64\nABC\n", 0⟩).1 = .ok [10] ∧
    (unwrapStream (fun _ => .error ()) (fun l => .ok l)
      ⟨bs "CREATE PROCEDURE p WRAPPED\n1 64\nABC\n", 0⟩).1 = .error .b64Error ∧
    (unwrapStream (fun l => .ok l) (fun _ => .error ())
      ⟨bs "CREATE PROCEDURE p WRAPPED\n1 64\nABC\n", 0⟩).1 = .error .zlibError := by
  refine ⟨?_, ?_, ?_, ?_⟩ <;> decide

/-! ### The object-type field stays upper-cased

`_object_type` is only ever assigned from an upper-cased, stripped token (or
the constant `PACKAGE BODY`), so it is invariant under `bytes.upper()`.  This
connects the `object_type.lower() in [...]` test of `is_wrappable` with the
upper-case type set named by the spec. -/

/-- The object-type field is a fixed point of upper-casing. -/
def typeUpperInv : Option (List Nat) → Prop
  | none => True
  | some l => upperB l = l

theorem toUpperB_toUpperB (b : Nat) : toUpperB (toUpperB b) = toUpperB b := by
  by_cases h : 97 ≤ b ∧ b ≤ 122
  · have e : toUpperB b = b - 32 := by unfold toUpperB; rw [if_pos h]
    rw [e]
    unfold toUpperB
    rw [if_neg (by omega)]
  · have e : toUpperB b = b := by unfold toUpperB; rw [if_neg h]
    rw [e, e]

theorem upperB_upperB (l : List Nat) : upperB (upperB l) = upperB l := by
  induction l with
  | nil => rfl
  | cons b t ih =>
    unfold upperB at ih ⊢
    simp only [List.map_cons]
    rw [toUpperB_toUpperB, ih]

theorem isWsB_toUpperB (b : Nat) : isWsB (toUpperB b) = isWsB b := by
  by_cases h : 97 ≤ b ∧ b ≤ 122
  · have e : toUpperB b = b - 32 := by unfold toUpperB; rw [if_pos h]
    rw [e]
    have e1 : isWsB (b - 32) = false := by unfold isWsB; simp; try omega
    have e2 : isWsB b = false := by unfold isWsB; simp; try omega
    rw [e1, e2]
  · have e : toUpperB b = b := by unfold toUpperB; rw [if_neg h]
    rw [e]

theorem lstripB_upperB (l : List Nat) : lstripB (upperB l) = upperB (lstripB l) := by
  induction l with
  | nil => rfl
  | cons b t ih =>
    simp only [upperB, List.map_cons, lstripB, List.dropWhile_cons] at ih ⊢
    rw [isWsB_toUpperB]
    by_cases h : isWsB b
    · simp [h]; exact ih
    · simp [h, upperB]

theorem rstripB_upperB (l : List Nat) : rstripB (upperB l) = upperB (rstripB l) := by
  unfold rstripB
  have h1 : (upperB l).reverse = upperB l.reverse := by simp [upperB]
  rw [h1]
  have h2 : (upperB l.reverse).dropWhile isWsB = upperB (l.reverse.dropWhile isWsB) := by
    have := lstripB_upperB l.reverse
    simpa [lstripB] using this
  rw [h2]
  simp [upperB]

theorem stripB_upperB (l : List Nat) : stripB (upperB l) = upperB (stripB l) := by
  unfold stripB
  rw [lstripB_upperB, rstripB_upperB]

theorem objectTypeJoin_upper {cur : Option (List Nat)} {j t : List Nat}
    (hc : typeUpperInv cur)
    (h : objectTypeJoin cur (upperB j) = .ok t) : upperB t = t := by
  unfold objectTypeJoin at h
  by_cases h1 : pyTruthyO cur
  · simp only [h1, Bool.not_true, Bool.false_eq_true, if_false] at h
    by_cases h2 : stripB (upperB j) = bs "BODY" ∧ cur = some (bs "PACKAGE")
    · simp only [h2, if_true] at h
      cases h
      rcases h2 with ⟨h2a, h2b⟩
      subst h2b
      decide
    · simp [h2] at h
  · simp only [h1, Bool.not_false, if_true] at h
    cases h
    rw [← stripB_upperB, upperB_upperB]

theorem appendObjectName_objectType {st : NState} {line : List Nat} {st' : NState}
    (h : appendObjectName st line = .ok st') : st'.objectType = st.objectType := by
  unfold appendObjectName at h
  dsimp only at h
  repeat' split at h
  all_goals
    first
      | (cases h; rfl)
      | (simp at h; done)

set_option maxHeartbeats 1000000 in
theorem filterContent_objectType {flags : List NFlag} {st : NState}
    {line r : List Nat} {st' : NState}
    (h : filterContent flags st line = .ok (r, st')) :
    st'.objectType = st.objectType := by
  unfold filterContent at h
  dsimp only at h
  repeat' split at h
  all_goals
    first
      | (cases h; rfl)
      | (simp at h; done)
      | (simp only [Bind.bind, Pure.pure, Functor.map, Except.bind, Except.pure,
           Except.map] at h
         repeat' split at h
         all_goals first | (cases h; rfl) | (simp at h; done)
         done)
      | (cases ha : appendObjectName st line with
         | error e =>
           rw [ha] at h
           exact Except.noConfusion h
         | ok stA =>
           rw [ha] at h
           have hA := appendObjectName_objectType ha
           simp only [Bind.bind, Pure.pure, Functor.map, Except.bind, Except.pure,
             Except.map] at h
           repeat' split at h
           all_goals
             first
               | (cases h; exact hA)
               | (simp at h; done))

theorem filterContent_typeUpper {flags : List NFlag} {st : NState}
    {line r : List Nat} {st' : NState}
    (h : filterContent flags st line = .ok (r, st'))
    (hI : typeUpperInv st.objectType) : typeUpperInv st'.objectType := by
  rw [filterContent_objectType h]; exact hI

theorem setNameNoMatch_typeUpper {st : NState} {line : List Nat} {st' : NState}
    (h : setNameNoMatch st line = .ok st')
    (hI : typeUpperInv st.objectType) : typeUpperInv st'.objectType := by
  simp only [setNameNoMatch] at h
  repeat' split at h
  all_goals first | (cases h; exact hI) | (simp at h; done)

theorem setNameFromBefore_typeUpper {st : NState} {lineBefore : List Nat}
    {st' : NState}
    (h : setNameFromBefore st lineBefore = .ok st')
    (hI : typeUpperInv st.objectType) : typeUpperInv st'.objectType := by
  simp only [setNameFromBefore] at h
  repeat' split at h
  all_goals first | (cases h; exact hI) | (simp at h; done)

theorem setNameFromBefore_upd_typeUpper {st : NState} {pat : Option (List Nat)}
    {lineBefore : List Nat} {st' : NState}
    (h : setNameFromBefore
      { commentStarted := st.commentStarted, literalStarted := st.literalStarted,
        objectNameStarted := st.objectNameStarted, wrapped := st.wrapped,
        createFound := st.createFound, orFound := st.orFound,
        replaceFound := st.replaceFound, asFound := st.asFound,
        objectType := st.objectType, objectName := st.objectName, reEndobj := pat,
        objectNameAppend := st.objectNameAppend,
        objectNameRemoveQuotes := st.objectNameRemoveQuotes } lineBefore = .ok st')
    (hI : typeUpperInv st.objectType) : typeUpperInv st'.objectType :=
  setNameFromBefore_typeUpper h hI

theorem normDispatch_typeUpper {flags : List NFlag} {st : NState} {m : MatchRes}
    {joining0 lineAfter j : List Nat} {st' : NState}
    (h : normDispatch flags st m joining0 lineAfter = .ok (j, st'))
    (hI : typeUpperInv st.objectType) : typeUpperInv st'.objectType := by
  cases m with
  | mk ctx ms me endPat =>
    cases ctx <;> simp only [normDispatch] at h <;> repeat' split at h
    all_goals
      first
        | (cases h; exact hI)
        | (simp at h; done)
        | (cases h; exact objectTypeJoin_upper hI (by assumption))

theorem closeCtxAdjust_typeUpper (flags : List NFlag) (ctx : Option Ctx)
    (st : NState) (joining joiningOrig lineAfter : List Nat)
    (hI : typeUpperInv st.objectType) :
    typeUpperInv
      ((closeCtxAdjust flags ctx st joining joiningOrig lineAfter).2.2).objectType := by
  unfold closeCtxAdjust
  repeat' split
  all_goals exact hI

theorem closeCtxAdjust_eq_typeUpper {flags : List NFlag} {ctx : Option Ctx}
    {st : NState} {joining joiningOrig lineAfter a b : List Nat} {c : NState}
    (h : closeCtxAdjust flags ctx st joining joiningOrig lineAfter = (a, b, c))
    (hI : typeUpperInv st.objectType) : typeUpperInv c.objectType := by
  have h2 := closeCtxAdjust_typeUpper flags ctx st joining joiningOrig lineAfter hI
  rw [h] at h2
  exact h2

theorem resetParseFlags_typeUpper {st : NState}
    (hI : typeUpperInv st.objectType) :
    typeUpperInv (resetParseFlags st).objectType := hI


theorem closeCtxAdjust_reset_typeUpper (flags : List NFlag) (ctx : Option Ctx)
    (st : NState) (joining joiningOrig lineAfter : List Nat)
    (hI : typeUpperInv st.objectType) :
    typeUpperInv
      ((closeCtxAdjust flags ctx (resetParseFlags st) joining joiningOrig
        lineAfter).2.2).objectType :=
  closeCtxAdjust_typeUpper flags ctx (resetParseFlags st) joining joiningOrig lineAfter
    (resetParseFlags_typeUpper hI)

set_option maxHeartbeats 400000 in
theorem normalizeLine_typeUpper (flags : List NFlag) :
    ∀ (fuel : Nat) (st : NState) (line r : List Nat) (st' : NState),
      normalizeLine flags fuel st line = .ok (r, st') →
      typeUpperInv st.objectType → typeUpperInv st'.objectType := by
  intro fuel
  induction fuel with
  | zero =>
    intro st line r st' h hI
    simp [normalizeLine] at h
  | succ fuel ih =>
    intro st line r st' h hI
    cases line with
    | nil =>
      simp [normalizeLine] at h
      rw [← h.2]
      exact hI
    | cons b rest =>
      rw [normalizeLine] at h
      simp only [Bind.bind, Pure.pure, Except.bind, Except.pure] at h
      repeat' split at h
      all_goals
        first
          | (simp at h; done)
          | ((try (cases h))
             first
               | (solve_by_elim [filterContent_typeUpper, setNameNoMatch_typeUpper,
                   setNameFromBefore_typeUpper, setNameFromBefore_upd_typeUpper,
                   normDispatch_typeUpper,
                   closeCtxAdjust_typeUpper, closeCtxAdjust_eq_typeUpper,
                   closeCtxAdjust_reset_typeUpper,
                   resetParseFlags_typeUpper, ih, hI])
               | (rename_i hq0
                  refine ih _ _ _ _ hq0 ?_
                  repeat
                    first
                      | exact hI
                      | exact resetParseFlags_typeUpper hI
                      | apply closeCtxAdjust_reset_typeUpper
                      | (apply filterContent_typeUpper; assumption)
                      | (apply normDispatch_typeUpper; assumption)
                      | (apply setNameFromBefore_upd_typeUpper; assumption)
                      | (apply setNameFromBefore_typeUpper; assumption)
                      | (apply setNameNoMatch_typeUpper; assumption))
               | (simp; done)
               | fail)

/-- Lower-casing then upper-casing a byte equals upper-casing it. -/
theorem toUpperB_toLowerB (b : Nat) : toUpperB (toLowerB b) = toUpperB b := by
  by_cases h : 65 ≤ b ∧ b ≤ 90
  · have e : toLowerB b = b + 32 := by unfold toLowerB; rw [if_pos h]
    rw [e]
    unfold toUpperB
    rw [if_pos (by omega), if_neg (by omega)]
    omega
  · have e : toLowerB b = b := by unfold toLowerB; rw [if_neg h]
    rw [e]

/-- `bytes.upper()` absorbs a preceding `bytes.lower()`. -/
theorem upperB_lowerB (l : List Nat) : upperB (lowerB l) = upperB l := by
  unfold upperB lowerB
  rw [List.map_map]
  exact List.map_congr_left (fun a _ => toUpperB_toLowerB a)

/-- A fixed point of `upper()` is determined by its `lower()` image. -/
theorem typeUpper_lower_eq {t w : List Nat} (hU : upperB t = t)
    (hL : lowerB t = w) : t = upperB w := by
  have h2 := upperB_lowerB t
  rw [hL, hU] at h2
  exact h2.symm

/-- The line loop of `normalize` preserves the upper-case invariant of
`_object_type`. -/
theorem normalizeLoop_typeUpper (flags : List NFlag) (limit : Option Nat) :
    ∀ (fuel : Nat) (s : PyStream) (st : NState) (written : List Nat)
      (a e : Bool) (c : Nat) (slash : Bool) (st' : NState),
      (normalizeLoop flags limit fuel s st written a e c).res = .ok (slash, st') →
      typeUpperInv st.objectType → typeUpperInv st'.objectType := by
  intro fuel
  induction fuel with
  | zero =>
    intro s st written a e c slash st' h hI
    simp [normalizeLoop] at h
  | succ fuel ih =>
    intro s st written a e c slash st' h hI
    rw [normalizeLoop] at h
    repeat' (first | split at h | dsimp only at h)
    all_goals try dsimp only at h
    all_goals
      first
        | (exact Except.noConfusion h)
        | (cases h
           repeat
             first
               | exact hI
               | (apply normalizeLine_typeUpper; assumption))
        | (refine ih _ _ _ _ _ _ _ _ h ?_
           repeat
             first
               | exact hI
               | (apply normalizeLine_typeUpper; assumption))

/-- Any state returned successfully by `normalize` has an `_object_type`
that is a fixed point of `bytes.upper()` (it starts as `None` and every
assignment upper-cases). -/
theorem normalizeStream_typeUpper {s0 : PyStream} {flags : List NFlag}
    {limit : Option Nat} {st : NState}
    (h : (normalizeStream s0 flags limit).res = .ok st) :
    typeUpperInv st.objectType := by
  unfold normalizeStream at h
  repeat' (first | split at h | dsimp only at h)
  all_goals try dsimp only at h
  all_goals
    first
      | (exact Except.noConfusion h)
      | (cases h
         rename_i hres _ _
         rw [runLoop] at hres
         exact normalizeLoop_typeUpper flags limit _ _ _ _ _ _ _ _ _ hres trivial)

/-- C7: for every input `x`, `is_wrappable(x)` returns true exactly when the
full-flag normalization pass (`NO_COMMENTS`, `NO_SPACES`, `UPPERCASE`,
`NO_LITERALS`) ends in a state with `create_found`, a parsed (truthy) object
name, `as_found`, and an object type among `PROCEDURE`, `FUNCTION`,
`PACKAGE BODY`; and when that pass raises a normalization error or exhausts
the recursion depth, `is_wrappable` returns false instead of propagating. -/
theorem is_wrappable_characterization (x : List Nat) :
    (isWrappable x = .ok true ↔
      ∃ st, (normalizeStream ⟨x, 0⟩ (flFull ++ [.noLiterals]) none).res = .ok st ∧
        st.createFound = true ∧ pyTruthyO st.objectName = true ∧
        st.asFound = true ∧
        (st.objectType = some (bs "PROCEDURE") ∨
         st.objectType = some (bs "FUNCTION") ∨
         st.objectType = some (bs "PACKAGE BODY"))) ∧
    (∀ e, (normalizeStream ⟨x, 0⟩ (flFull ++ [.noLiterals]) none).res = .error e →
        catchable e = true → isWrappable x = .ok false) := by
  refine ⟨⟨?_, ?_⟩, ?_⟩
  · intro h
    have hT0 := @normalizeStream_typeUpper ⟨x, 0⟩ (flFull ++ [.noLiterals]) none
    unfold isWrappable isPropsG at h
    cases hres : (normalizeStream ⟨x, 0⟩ (flFull ++ [.noLiterals]) none).res with
    | error e =>
      rw [hres] at h
      dsimp only at h
      by_cases hc : catchable e = true
      · rw [if_pos hc] at h
        simp [Except.map, initNState, pyTruthyO] at h
      · rw [if_neg hc] at h
        simp [Except.map] at h
    | ok st =>
      rw [hres] at h
      simp only [Except.map, Except.ok.injEq] at h
      simp only [Bool.and_eq_true, decide_eq_true_eq, List.mem_cons,
        List.mem_singleton, List.not_mem_nil, or_false] at h
      obtain ⟨⟨⟨⟨hcF, htyT⟩, hnT⟩, hmem⟩, hasT⟩ := h
      have hT := hT0 hres
      refine ⟨st, rfl, hcF, hnT, hasT, ?_⟩
      cases hty2 : st.objectType with
      | none => rw [hty2] at htyT; simp [pyTruthyO] at htyT
      | some t =>
        rw [hty2] at hT hmem
        simp only [typeUpperInv] at hT
        simp only [Option.getD_some] at hmem
        rcases hmem with hL | hL | hL
        · left
          rw [typeUpper_lower_eq hT hL]
          decide
        · right; left
          rw [typeUpper_lower_eq hT hL]
          decide
        · right; right
          rw [typeUpper_lower_eq hT hL]
          decide
  · intro ⟨st, hres, hcF, hnT, hasT, hty⟩
    unfold isWrappable isPropsG
    rw [hres]
    simp only [Except.map, Except.ok.injEq]
    rcases hty with hty | hty | hty <;>
      simp [hty, hcF, hnT, hasT] <;> decide
  · intro e hres hcat
    unfold isWrappable isPropsG
    rw [hres]
    dsimp only
    rw [if_pos hcat]
    simp [Except.map]
    decide

/-- Witness: on empty input the pass fails with "Object type not parsed.",
a catchable error, and `is_wrappable` returns false. -/
theorem is_wrappable_characterization_witness :
    isWrappable [] = Except.ok false :=
  (is_wrappable_characterization []).2 (NErr.normErr NErrMsg.objectTypeNotParsed)
    (by decide) (by decide)

end SqlHelpers
